import Mathlib

/-!
# Kaleidoscope drawing pad: symmetric stamp renderer and undo/redo history

Shallow embedding of `src/script.js`.

* Numbers are taken in a field `α` (exact arithmetic): the claims about the
  renderer are stated over exact real arithmetic, and every definition stays
  executable over the rationals.  The language runtime's `Math.PI` and the
  cosine and sine behind `ctx.rotate` are a parameter (`JsMath`).
* The drawing surface is the sequence of fill operations applied to the blank
  canvas; a full overwrite (`clearRect` then `drawImage` of a snapshot)
  replaces the sequence.  Equal sequences have equal pixels.
* `canvas.toDataURL()` is a lossless snapshot and the image decode behind
  `image.onload` is synchronous.
* Global variables are fields of `State`, and so are the transformation
  matrix of the canvas context and the stack of `ctx.save()`.  A statement
  that throws aborts the running function and its callers; the mutations
  made before the throw stay (`Outcome`).
* The methods `ctx.arc` and `ctx.ellipse` throw an `IndexSizeError` when a
  radius is negative; `drawDot` passes `parseInt(dotSize)` to them unchecked.
* Line 17 declares `redoStack` with `const` and line 220 assigns to it.  A
  `const` declaration creates an immutable binding, and an assignment to an
  immutable binding throws a `TypeError` when it is evaluated, in strict and
  in sloppy code alike (`assign`).  The methods `push` and `pop` mutate the
  array the binding holds and do not throw.
-/

namespace Script

/-! ## Canvas 2D context -/

/-- Runtime numerics used by the renderer: `Math.PI`, and the cosine and sine
with which `ctx.rotate(angle)` builds its rotation matrix. -/
structure JsMath (α : Type) where
  PI : α
  cos : α → α
  sin : α → α

/-- Current transformation matrix of a 2D context.  A point `(x, y)` of user
space is sent to `(a*x + c*y + e, b*x + d*y + f)` in device space. -/
structure Transform (α : Type) where
  a : α
  b : α
  c : α
  d : α
  e : α
  f : α
deriving DecidableEq, Repr

variable {α : Type}

/-- The matrix of a fresh context. -/
def Transform.identity [Field α] : Transform α := ⟨1, 0, 0, 1, 0, 0⟩

/-- Method `ctx.translate(tx, ty)`: the matrix is multiplied on the right by the
translation. -/
def Transform.translate [Field α] (m : Transform α) (tx ty : α) : Transform α :=
  { m with e := m.a * tx + m.c * ty + m.e, f := m.b * tx + m.d * ty + m.f }

/-- Method `ctx.rotate(angle)`: the matrix is multiplied on the right by
`[cos, -sin; sin, cos]`. -/
def Transform.rotate [Field α] (M : JsMath α) (m : Transform α) (angle : α) : Transform α :=
  let co := M.cos angle
  let si := M.sin angle
  { a := m.a * co + m.c * si
    b := m.b * co + m.d * si
    c := m.c * co - m.a * si
    d := m.d * co - m.b * si
    e := m.e
    f := m.f }

/-- Device-space image of a user-space point. -/
def Transform.apply [Field α] (m : Transform α) (p : α × α) : α × α :=
  (m.a * p.1 + m.c * p.2 + m.e, m.b * p.1 + m.d * p.2 + m.f)

/-- The values of the `brushShape` select that `drawDot` tests for. -/
inductive BrushShape where
  | circle
  | square
  | oval
  | rectangle
  | triangle
deriving DecidableEq, Repr

/-- A path as built by one branch of `drawDot`, in user-space coordinates. -/
inductive Path (α : Type) where
  /-- Built by `ctx.arc(x, y, radius, startAngle, endAngle)`. -/
  | arc (x y radius startAngle endAngle : α)
  /-- Built by `ctx.rect(x, y, w, h)`. -/
  | rect (x y w h : α)
  /-- Built by `ctx.ellipse(x, y, radiusX, radiusY, rotation, startAngle, endAngle)`. -/
  | ellipse (x y radiusX radiusY rotation startAngle endAngle : α)
  /-- Built by `moveTo` followed by `lineTo` calls and `closePath`. -/
  | polygon (vertices : List (α × α))
deriving DecidableEq, Repr

/-- A pattern made by `ctx.createPattern(patternCanvas, "no-repeat")`. -/
structure CanvasPattern where
  id : Nat
deriving DecidableEq, Repr

/-- Value of `ctx.fillStyle`. -/
inductive FillStyle where
  | pattern (p : CanvasPattern)
  | color (c : String)
deriving DecidableEq, Repr

/-- One `ctx.fill()`: the path, the matrix in force and the fill style. -/
structure Stamp (α : Type) where
  ctm : Transform α
  path : Path α
  fillStyle : FillStyle
deriving DecidableEq, Repr

/-- Pixel contents of the canvas: the fills applied to the blank canvas, oldest
first. -/
abbrev Surface (α : Type) := List (Stamp α)

/-- Result of `canvas.toDataURL()`: a lossless encoding of the pixels. -/
structure DataURL (α : Type) where
  pixels : Surface α
deriving DecidableEq, Repr

/-- An array of snapshots; `none` is the value `undefined`. -/
abbrev Stack (α : Type) := List (Option (DataURL α))

/-! ## Program state -/

/-- The global variables of the script, the canvas and the two buttons. -/
structure State (α : Type) where
  /-- Pixels of `canvas`. -/
  surface : Surface α
  /-- Current transformation matrix of `ctx`. -/
  ctm : Transform α
  /-- Matrices pushed by `ctx.save()` and not yet popped by `ctx.restore()`,
  the latest first. -/
  ctxSaved : List (Transform α)
  isDrawing : Bool
  /-- Control value `mirrorCount`, a count of loop iterations. -/
  mirrorCount : Nat
  /-- Control value `dotSize` after `parseInt`: any integer, negative ones
  included (the script stores the control value unchecked, lines 44 and 51). -/
  dotSize : Int
  mirrorCenterX : α
  mirrorCenterY : α
  brushShape : BrushShape
  brushColor : String
  brushPattern : Option CanvasPattern
  undoStack : Stack α
  redoStack : Stack α
  undoIndex : Int
  /-- Property `disabled` of the undo button. -/
  undoButtonDisabled : Bool
  /-- Property `disabled` of the redo button. -/
  redoButtonDisabled : Bool
deriving DecidableEq, Repr

/-- How a function call ends. -/
inductive Completion where
  | normal
  /-- A `TypeError` was thrown (assignment to a constant variable). -/
  | throwTypeError
  /-- An `IndexSizeError` was thrown (negative radius). -/
  | throwIndexSizeError
deriving DecidableEq, Repr

/-- State left by a call together with the way the call ended. -/
structure Outcome (α : Type) where
  state : State α
  completion : Completion
deriving DecidableEq, Repr

/-- Sequencing of statements: what follows a throw is skipped. -/
def Outcome.andThen (o : Outcome α) (k : State α → Outcome α) : Outcome α :=
  match o.completion with
  | .normal => k o.state
  | .throwTypeError => o
  | .throwIndexSizeError => o

/-- Keyword with which a global variable is declared. -/
inductive Declarator where
  | constDecl
  | letDecl
deriving DecidableEq, Repr

/-- Line 6: `let isDrawing = false;`. -/
def isDrawingDecl : Declarator := .letDecl

/-- Line 17: `const redoStack = [];`. -/
def redoStackDecl : Declarator := .constDecl

/-- Line 18: `let undoIndex = -1;`. -/
def undoIndexDecl : Declarator := .letDecl

/-- An assignment to a declared variable (`name = value`, `name++`,
`--name`).  A variable declared with `const` is an immutable binding: the
assignment throws a `TypeError` and stores nothing.  A variable declared with
`let` takes the new value. -/
def assign (d : Declarator) (store : State α → State α) (s : State α) : Outcome α :=
  match d with
  | .letDecl => ⟨store s, .normal⟩
  | .constDecl => ⟨s, .throwTypeError⟩

/-- State at the end of the top-level script, before any event: the controls
hold the values read from the page at lines 7 to 12, the canvas is blank and
its context is fresh. -/
def initialState [Field α] (mirrorCount : Nat) (dotSize : Int) (mirrorCenterX mirrorCenterY : α)
    (brushShape : BrushShape) (brushColor : String)
    (undoButtonDisabled redoButtonDisabled : Bool) : State α :=
  { surface := []
    ctm := Transform.identity
    ctxSaved := []
    isDrawing := false
    mirrorCount := mirrorCount
    dotSize := dotSize
    mirrorCenterX := mirrorCenterX
    mirrorCenterY := mirrorCenterY
    brushShape := brushShape
    brushColor := brushColor
    brushPattern := none
    undoStack := []
    redoStack := []
    undoIndex := -1
    undoButtonDisabled := undoButtonDisabled
    redoButtonDisabled := redoButtonDisabled }

/-! ## Symmetric stamp renderer (`drawDot`, lines 117 to 153) -/

/-- Path built by the branch of `drawDot` for `brushShape`, lines 128 to 146. -/
def shapePath [Field α] (M : JsMath α) (brushShape : BrushShape)
    (x y mirrorCenterX mirrorCenterY size : α) : Path α :=
  match brushShape with
  | .circle => .arc (x - mirrorCenterX) (y - mirrorCenterY) size 0 (M.PI * 2)
  | .square => .rect (x - mirrorCenterX - size / 2) (y - mirrorCenterY - size / 2) size size
  | .oval => .ellipse (x - mirrorCenterX) (y - mirrorCenterY) size (size / 2) 0 0 (M.PI * 2)
  | .rectangle => .rect (x - mirrorCenterX - size) (y - mirrorCenterY - size / 2) (size * 2) size
  | .triangle =>
    .polygon [(x - mirrorCenterX, y - mirrorCenterY - size),
              (x - mirrorCenterX + size, y - mirrorCenterY + size),
              (x - mirrorCenterX - size, y - mirrorCenterY + size)]

/-- Line 148: `ctx.fillStyle = brushPattern ? brushPattern : brushColor`. -/
def fillStyleOf (s : State α) : FillStyle :=
  match s.brushPattern with
  | some p => .pattern p
  | none => .color s.brushColor

/-- Whether the path-building call of the branch for `brushShape` throws:
`ctx.arc` throws an `IndexSizeError` when its radius is negative, `ctx.ellipse`
when one of its two radii is (`size` and `size / 2` are negative together);
`ctx.rect`, `moveTo` and `lineTo` accept every number. -/
def pathThrows (brushShape : BrushShape) (size : Int) : Bool :=
  match brushShape with
  | .circle => decide (size < 0)
  | .oval => decide (size < 0)
  | .square => false
  | .rectangle => false
  | .triangle => false

/-- What the `for` loop leaves: the context matrix, the canvas and the way
the loop ended. -/
structure LoopResult (α : Type) where
  ctm : Transform α
  canvas : Surface α
  completion : Completion

/-- The `for` loop of lines 125 to 150 with `remaining` iterations left: each
iteration rotates the context by `angleIncrement`, builds the path (`throws`
tells whether that call throws, which ends the loop) and fills it. -/
def drawLoop [Field α] (M : JsMath α) (angleIncrement : α) (throws : Bool) (path : Path α)
    (style : FillStyle) : Nat → Transform α → Surface α → LoopResult α
  | 0, ctm, canvas => ⟨ctm, canvas, .normal⟩
  | remaining + 1, ctm, canvas =>
    let ctm1 := ctm.rotate M angleIncrement
    if throws then ⟨ctm1, canvas, .throwIndexSizeError⟩
    else drawLoop M angleIncrement throws path style remaining ctm1
      (canvas ++ [⟨ctm1, path, style⟩])

/-- Method `ctx.restore()`: pops the latest saved matrix, does nothing when
none is saved. -/
def ctxRestore (s : State α) : State α :=
  match s.ctxSaved with
  | [] => s
  | m :: rest => { s with ctm := m, ctxSaved := rest }

/-- Function `drawDot(x, y)`: `ctx.save()`, `ctx.translate` to the pivot, the
loop, `ctx.restore()`.  When the loop throws, `ctx.restore()` does not run
and the context keeps the matrix the loop left. -/
def drawDot [Field α] (M : JsMath α) (s : State α) (x y : α) : Outcome α :=
  if !s.isDrawing then ⟨s, .normal⟩
  else
    let size : α := (s.dotSize : α)
    let angleIncrement := (M.PI * 2) / (s.mirrorCount : α)
    let ctm := s.ctm.translate s.mirrorCenterX s.mirrorCenterY
    let path := shapePath M s.brushShape x y s.mirrorCenterX s.mirrorCenterY size
    let r := drawLoop M angleIncrement (pathThrows s.brushShape s.dotSize) path (fillStyleOf s)
      s.mirrorCount ctm s.surface
    let s1 := { s with surface := r.canvas, ctm := r.ctm, ctxSaved := s.ctm :: s.ctxSaved }
    match r.completion with
    | .normal => ⟨ctxRestore s1, .normal⟩
    | .throwTypeError => ⟨s1, .throwTypeError⟩
    | .throwIndexSizeError => ⟨s1, .throwIndexSizeError⟩

/-- Bounding-box centre of a list of points, `(0, 0)` for the empty list. -/
def bboxCentre [LinearOrderedField α] : List (α × α) → α × α
  | [] => (0, 0)
  | p :: ps =>
    let xmin := ps.foldl (fun m q => min m q.1) p.1
    let xmax := ps.foldl (fun m q => max m q.1) p.1
    let ymin := ps.foldl (fun m q => min m q.2) p.2
    let ymax := ps.foldl (fun m q => max m q.2) p.2
    ((xmin + xmax) / 2, (ymin + ymax) / 2)

/-- Centre of a path in user space: the centre of an arc or ellipse, the
middle of a rectangle, the middle of the bounding box of a polygon. -/
def Path.centre [LinearOrderedField α] : Path α → α × α
  | .arc x y _ _ _ => (x, y)
  | .rect x y w h => (x + w / 2, y + h / 2)
  | .ellipse x y _ _ _ _ _ => (x, y)
  | .polygon vertices => bboxCentre vertices

/-- Centre of a painted shape instance in device space. -/
def Stamp.centre [LinearOrderedField α] (st : Stamp α) : α × α :=
  st.ctm.apply st.path.centre

/-- A path moved by the vector `(dx, dy)`. -/
def Path.shift [Field α] (dx dy : α) : Path α → Path α
  | .arc x y r a0 a1 => .arc (x + dx) (y + dy) r a0 a1
  | .rect x y w h => .rect (x + dx) (y + dy) w h
  | .ellipse x y rx ry rot a0 a1 => .ellipse (x + dx) (y + dy) rx ry rot a0 a1
  | .polygon vertices => .polygon (vertices.map fun p => (p.1 + dx, p.2 + dy))

/-- Base geometry of a brush shape at `(x, y)` as section 4.1 of the
specification words it: a disk of radius `size`; a centred axis-aligned
square of side `size`; an ellipse of horizontal radius `size` and vertical
radius `size / 2`; a centred axis-aligned rectangle of width `2 * size` and
height `size`; a triangle with apex `(x, y - size)` and base corners
`(x + size, y + size)` and `(x - size, y + size)`. -/
def specGeometry [Field α] (M : JsMath α) (shape : BrushShape) (x y size : α) : Path α :=
  match shape with
  | .circle => .arc x y size 0 (M.PI * 2)
  | .square => .rect (x - size / 2) (y - size / 2) size size
  | .oval => .ellipse x y size (size / 2) 0 0 (M.PI * 2)
  | .rectangle => .rect (x - (2 * size) / 2) (y - size / 2) (2 * size) size
  | .triangle => .polygon [(x, y - size), (x + size, y + size), (x - size, y + size)]

/-- Rotation of the plane about the origin by the angle whose cosine and sine
are `co` and `si` (the matrix `ctx.rotate` uses). -/
def rotateAboutOrigin [Field α] (co si : α) (p : α × α) : α × α :=
  (co * p.1 - si * p.2, si * p.1 + co * p.2)

/-! ## History manager (lines 216 to 259) -/

/-- Function `disableUndoRedoButtons(enable)`, lines 256 to 259. -/
def disableUndoRedoButtons (enable : Bool) (s : State α) : State α :=
  { s with
    undoButtonDisabled := !enable || decide (s.undoIndex = 0)
    redoButtonDisabled := !enable || decide (s.redoStack.length = 0) }

/-- Array read `stack[i]`: `undefined` outside the array. -/
def Stack.index (stack : Stack α) (i : Int) : Option (DataURL α) :=
  if i < 0 then none else (stack.get? i.toNat).join

/-- Value returned by `stack.pop()`: the last element, `undefined` on an empty
array. -/
def Stack.popped (stack : Stack α) : Option (DataURL α) :=
  stack.getLast?.join

/-- Setting `image.src = canvasData` with the `onload` handler of lines 230 to
233 (and 245 to 248): a snapshot decodes and overwrites the whole canvas;
`undefined` is no image, the handler does not run. -/
def loadImage (canvasData : Option (DataURL α)) (s : State α) : State α :=
  match canvasData with
  | some d => { s with surface := d.pixels }
  | none => s

/-- Function `saveState()`, lines 217 to 223. -/
def saveState (s : State α) : Outcome α :=
  let canvasData : DataURL α := ⟨s.surface⟩
  let s1 := { s with undoStack := s.undoStack ++ [some canvasData] }
  (assign redoStackDecl (fun t => { t with redoStack := [] }) s1).andThen fun s2 =>
  (assign undoIndexDecl (fun t => { t with undoIndex := t.undoIndex + 1 }) s2).andThen fun s3 =>
  ⟨disableUndoRedoButtons true s3, .normal⟩

/-- Function `undoAction()`, lines 226 to 238. -/
def undoAction (s : State α) : Outcome α :=
  if 0 < s.undoIndex then
    (assign undoIndexDecl (fun t => { t with undoIndex := t.undoIndex - 1 }) s).andThen fun s1 =>
    let canvasData := s1.undoStack.index s1.undoIndex
    let s2 := loadImage canvasData s1
    let s3 := { s2 with
      redoStack := s2.redoStack ++ [s2.undoStack.popped]
      undoStack := s2.undoStack.dropLast }
    ⟨disableUndoRedoButtons true s3, .normal⟩
  else ⟨s, .normal⟩

/-- Function `redoAction()`, lines 241 to 253. -/
def redoAction (s : State α) : Outcome α :=
  if 0 < s.redoStack.length then
    let canvasData := s.redoStack.popped
    let s1 := { s with redoStack := s.redoStack.dropLast }
    let s2 := loadImage canvasData s1
    let s3 := { s2 with undoStack := s2.undoStack ++ [canvasData] }
    ⟨disableUndoRedoButtons true s3, .normal⟩
  else ⟨s, .normal⟩

/-! ## Event handlers (lines 106, 107 and 173 to 214) -/

/-- The events the script listens to on the canvas and on the two buttons.
The touch events carry the position computed by `getTouchPos`. -/
inductive Event (α : Type) where
  | mousedown (offsetX offsetY : α)
  | mousemove (offsetX offsetY : α)
  | mouseup
  | mouseout
  | touchstart (x y : α)
  | touchmove (x y : α)
  | touchend
  | undoClick
  | redoClick
deriving DecidableEq, Repr

/-- Listener body shared by `mousedown` and `touchstart`. -/
def strokeStart [Field α] (M : JsMath α) (x y : α) (s : State α) : Outcome α :=
  (assign isDrawingDecl (fun t => { t with isDrawing := true }) s).andThen fun s1 =>
  (drawDot M s1 x y).andThen fun s2 =>
  (saveState s2).andThen fun s3 =>
  ⟨disableUndoRedoButtons false s3, .normal⟩

/-- Listener body shared by `mousemove` and `touchmove`. -/
def strokeMove [Field α] (M : JsMath α) (x y : α) (s : State α) : Outcome α :=
  if s.isDrawing then drawDot M s x y else ⟨s, .normal⟩

/-- Listener body shared by `mouseup`, `mouseout` and `touchend`. -/
def strokeEnd (s : State α) : Outcome α :=
  assign isDrawingDecl (fun t => { t with isDrawing := false }) s

/-- The listener run for an event. -/
def handle [Field α] (M : JsMath α) (ev : Event α) (s : State α) : Outcome α :=
  match ev with
  | .mousedown x y => strokeStart M x y s
  | .mousemove x y => strokeMove M x y s
  | .mouseup => strokeEnd s
  | .mouseout => strokeEnd s
  | .touchstart x y => strokeStart M x y s
  | .touchmove x y => strokeMove M x y s
  | .touchend => strokeEnd s
  | .undoClick => undoAction s
  | .redoClick => redoAction s

/-- State after a sequence of events.  An exception thrown by a listener is
reported and the page goes on with the state the listener left. -/
def run [Field α] (M : JsMath α) (evs : List (Event α)) (s : State α) : State α :=
  evs.foldl (fun t ev => (handle M ev t).state) s

/-- Direct calls of the three history functions. -/
inductive HistoryCall where
  | saveState
  | undoAction
  | redoAction
deriving DecidableEq, Repr

/-- One call of a history function. -/
def HistoryCall.exec (c : HistoryCall) (s : State α) : Outcome α :=
  match c with
  | .saveState => Script.saveState s
  | .undoAction => Script.undoAction s
  | .redoAction => Script.redoAction s

/-- State after a sequence of calls of the history functions. -/
def runCalls (cs : List HistoryCall) (s : State α) : State α :=
  cs.foldl (fun t c => (c.exec t).state) s

/-- Calling `saveState()` once for each canvas content of the list, the canvas
holding that content at the time of the call (the drawing between two
captures is arbitrary). -/
def captureAll (surfaces : List (Surface α)) (s : State α) : State α :=
  surfaces.foldl (fun t sf => (saveState { t with surface := sf }).state) s

/-- Number of consecutive calls of `undoAction()`, out of at most `fuel`, that
pass the guard of line 227 (a call that does not pass it changes nothing, so
the count stops at the first such call). -/
def undoCount : Nat → State α → Nat
  | 0, _ => 0
  | fuel + 1, s => if 0 < s.undoIndex then undoCount fuel (undoAction s).state + 1 else 0


/-! ## Concrete inputs -/

/-- A fresh page over the rationals: four mirrors about `(100, 100)`, a circle
brush of size 5. -/
def freshPage : State ℚ := initialState 4 5 100 100 .circle "#000000" false false

/-- A canvas holding one dot. -/
def canvasA : Surface ℚ := [⟨Transform.identity, .arc 0 0 5 0 6, .color "#000000"⟩]

/-- A canvas holding two dots. -/
def canvasB : Surface ℚ :=
  canvasA ++ [⟨Transform.identity, .arc 9 9 5 0 6, .color "#000000"⟩]

/-- A history holding the snapshot of `canvasA` under the cursor and the
snapshot of `canvasB` in the redo buffer, the canvas showing `canvasA`: what
the specification describes after two captures and one undo. -/
def undoneOnce : State ℚ :=
  { freshPage with
    surface := canvasA
    undoStack := [some ⟨canvasA⟩]
    redoStack := [some ⟨canvasB⟩]
    undoIndex := 0 }

/-- A page in the middle of a stroke with `mirrorCount` mirrors about
`(100, 100)`, a circle brush of size 5 and a blank canvas. -/
def activeStroke [Field α] (mirrorCount : Nat) : State α :=
  { initialState mirrorCount 5 100 100 .circle "#000000" false false with isDrawing := true }

/-- A page in the middle of a stroke as `activeStroke`, the size control
holding `-3`. -/
def negativeStroke [Field α] (mirrorCount : Nat) : State α :=
  { activeStroke mirrorCount with dotSize := -3 }

/-! ## Facts about the history functions -/

/-- The call `saveState()` appends the snapshot and then throws at line 220:
`redoStack` is declared with `const`.  Lines 221 and 222 do not run. -/
theorem saveState_eq (s : State α) :
    saveState s =
      ⟨{ s with undoStack := s.undoStack ++ [some ⟨s.surface⟩] }, .throwTypeError⟩ := rfl

theorem undoAction_of_not_pos (s : State α) (h : ¬ 0 < s.undoIndex) :
    undoAction s = ⟨s, .normal⟩ := by
  simp [undoAction, h]

theorem redoAction_of_nil (s : State α) (h : s.redoStack = []) :
    redoAction s = ⟨s, .normal⟩ := by
  simp [redoAction, h]

theorem drawDot_history [Field α] (M : JsMath α) (s : State α) (x y : α) :
    (drawDot M s x y).state.undoIndex = s.undoIndex ∧
      (drawDot M s x y).state.redoStack = s.redoStack ∧
      (drawDot M s x y).state.undoStack = s.undoStack := by
  unfold drawDot
  split
  · exact ⟨rfl, rfl, rfl⟩
  · dsimp only
    split <;> exact ⟨rfl, rfl, rfl⟩

theorem strokeStart_history [Field α] (M : JsMath α) (x y : α) (s : State α) :
    (strokeStart M x y s).state.undoIndex = s.undoIndex ∧
      (strokeStart M x y s).state.redoStack = s.redoStack := by
  have hd := drawDot_history M { s with isDrawing := true } x y
  have he : strokeStart M x y s =
      (drawDot M { s with isDrawing := true } x y).andThen fun s2 =>
        (saveState s2).andThen fun s3 => ⟨disableUndoRedoButtons false s3, .normal⟩ := rfl
  rw [he]
  unfold Outcome.andThen
  split
  · exact ⟨hd.1, hd.2.1⟩
  · exact ⟨hd.1, hd.2.1⟩
  · exact ⟨hd.1, hd.2.1⟩

/-- No listener moves the cursor off `-1` or fills the redo buffer. -/
theorem handle_history [Field α] (M : JsMath α) (ev : Event α) (s : State α)
    (h1 : s.undoIndex = -1) (h2 : s.redoStack = []) :
    (handle M ev s).state.undoIndex = -1 ∧ (handle M ev s).state.redoStack = [] := by
  have hu : ¬ 0 < s.undoIndex := by omega
  have hstart : ∀ x y : α, (strokeStart M x y s).state.undoIndex = -1 ∧
      (strokeStart M x y s).state.redoStack = [] := by
    intro x y
    have hd := strokeStart_history M x y s
    exact ⟨hd.1.trans h1, hd.2.trans h2⟩
  have hmove : ∀ x y : α, (strokeMove M x y s).state.undoIndex = -1 ∧
      (strokeMove M x y s).state.redoStack = [] := by
    intro x y
    have hm := drawDot_history M s x y
    unfold strokeMove
    split
    · exact ⟨hm.1.trans h1, hm.2.1.trans h2⟩
    · exact ⟨h1, h2⟩
  have hend : (strokeEnd s).state.undoIndex = -1 ∧ (strokeEnd s).state.redoStack = [] :=
    ⟨h1, h2⟩
  cases ev with
  | mousedown x y => exact hstart x y
  | mousemove x y => exact hmove x y
  | mouseup => exact hend
  | mouseout => exact hend
  | touchstart x y => exact hstart x y
  | touchmove x y => exact hmove x y
  | touchend => exact hend
  | undoClick =>
    show (undoAction s).state.undoIndex = -1 ∧ (undoAction s).state.redoStack = []
    rw [undoAction_of_not_pos s hu]
    exact ⟨h1, h2⟩
  | redoClick =>
    show (redoAction s).state.undoIndex = -1 ∧ (redoAction s).state.redoStack = []
    rw [redoAction_of_nil s h2]
    exact ⟨h1, h2⟩

/-- In every state reached by events from a state with the cursor at `-1` and
an empty redo buffer, the cursor is `-1` and the redo buffer is empty: neither
`undoAction()` nor `redoAction()` ever passes its guard. -/
theorem run_history [Field α] (M : JsMath α) (evs : List (Event α)) (s : State α)
    (h1 : s.undoIndex = -1) (h2 : s.redoStack = []) :
    (run M evs s).undoIndex = -1 ∧ (run M evs s).redoStack = [] := by
  induction evs generalizing s with
  | nil => exact ⟨h1, h2⟩
  | cons ev evs ih =>
    have h := handle_history M ev s h1 h2
    exact ih _ h.1 h.2

/-- No call of a history function moves the cursor off `-1` or fills the
redo buffer. -/
theorem exec_history (c : HistoryCall) (s : State α)
    (h1 : s.undoIndex = -1) (h2 : s.redoStack = []) :
    (c.exec s).state.undoIndex = -1 ∧ (c.exec s).state.redoStack = [] := by
  have hu : ¬ 0 < s.undoIndex := by omega
  cases c with
  | saveState => exact ⟨h1, h2⟩
  | undoAction =>
    show (undoAction s).state.undoIndex = -1 ∧ (undoAction s).state.redoStack = []
    rw [undoAction_of_not_pos s hu]
    exact ⟨h1, h2⟩
  | redoAction =>
    show (redoAction s).state.undoIndex = -1 ∧ (redoAction s).state.redoStack = []
    rw [redoAction_of_nil s h2]
    exact ⟨h1, h2⟩

theorem runCalls_history (cs : List HistoryCall) (s : State α)
    (h1 : s.undoIndex = -1) (h2 : s.redoStack = []) :
    (runCalls cs s).undoIndex = -1 ∧ (runCalls cs s).redoStack = [] := by
  induction cs generalizing s with
  | nil => exact ⟨h1, h2⟩
  | cons c cs ih =>
    have h := exec_history c s h1 h2
    exact ih _ h.1 h.2

theorem captureAll_cons (sf : Surface α) (rest : List (Surface α)) (s : State α) :
    captureAll (sf :: rest) s = captureAll rest (saveState { s with surface := sf }).state := rfl

/-- After any number of captures the undo sequence holds the snapshots in
capture order, the cursor has not moved and the redo buffer is untouched. -/
theorem captureAll_eq (surfaces : List (Surface α)) (s : State α) :
    (captureAll surfaces s).undoStack = s.undoStack ++ surfaces.map (fun sf => some ⟨sf⟩) ∧
      (captureAll surfaces s).undoIndex = s.undoIndex ∧
      (captureAll surfaces s).redoStack = s.redoStack := by
  induction surfaces generalizing s with
  | nil => exact ⟨(List.append_nil _).symm, rfl, rfl⟩
  | cons sf rest ih =>
    obtain ⟨h1, h2, h3⟩ := ih (saveState { s with surface := sf }).state
    rw [captureAll_cons]
    refine ⟨?_, h2, h3⟩
    rw [h1]
    show (s.undoStack ++ [some ⟨sf⟩]) ++ _ = _
    simp

/-- The call `redoAction()` never writes `undoIndex`. -/
theorem redoAction_undoIndex (s : State α) : (redoAction s).state.undoIndex = s.undoIndex := by
  unfold redoAction
  split
  · simp only [loadImage, disableUndoRedoButtons]
    split <;> rfl
  · rfl

theorem undoAction_undoIndex_of_pos (s : State α) (h : 0 < s.undoIndex) :
    (undoAction s).state.undoIndex = s.undoIndex - 1 := by
  unfold undoAction
  rw [if_pos h]
  simp only [assign, undoIndexDecl, Outcome.andThen, loadImage, disableUndoRedoButtons]
  split <;> rfl

theorem redoAction_redoStack_of_pos (s : State α) (h : 0 < s.redoStack.length) :
    (redoAction s).state.redoStack = s.redoStack.dropLast := by
  unfold redoAction
  rw [if_pos h]
  simp only [loadImage, disableUndoRedoButtons]
  split <;> rfl

theorem loadImage_stacks (d : Option (DataURL α)) (s : State α) :
    (loadImage d s).undoStack = s.undoStack ∧ (loadImage d s).redoStack = s.redoStack ∧
      (loadImage d s).undoIndex = s.undoIndex := by
  cases d <;> exact ⟨rfl, rfl, rfl⟩

theorem undoAction_redoStack_of_pos (s : State α) (h : 0 < s.undoIndex) :
    (undoAction s).state.redoStack = s.redoStack ++ [s.undoStack.popped] := by
  unfold undoAction
  rw [if_pos h]
  simp only [assign, undoIndexDecl, Outcome.andThen, disableUndoRedoButtons,
    (loadImage_stacks _ _).1, (loadImage_stacks _ _).2.1]

theorem redoAction_surface_of_top (s : State α) (older : Stack α) (top : DataURL α)
    (h : s.redoStack = older ++ [some top]) :
    (redoAction s).state.surface = top.pixels := by
  have hp : s.redoStack.popped = some top := by simp [Stack.popped, h]
  have hl : 0 < s.redoStack.length := by simp [h]
  unfold redoAction
  rw [if_pos hl]
  simp only [hp, loadImage, disableUndoRedoButtons]

/-- What the two functions do to the canvas wherever `undoAction()` passes its
guard: after the undo and the redo the canvas shows the snapshot that was the
last entry of the undo sequence. -/
theorem undoAction_redoAction_surface (s : State α) (older : Stack α) (top : DataURL α)
    (h : 0 < s.undoIndex) (hs : s.undoStack = older ++ [some top]) :
    (redoAction (undoAction s).state).state.surface = top.pixels := by
  have hp : s.undoStack.popped = some top := by simp [Stack.popped, hs]
  have hr := undoAction_redoStack_of_pos s h
  rw [hp] at hr
  exact redoAction_surface_of_top _ _ _ hr

/-! ## Facts about the renderer -/

/-- When the path-building call does not throw, the loop appends one stamp per
iteration; the stamp of iteration `i` (counted from 0) carries the entry
matrix rotated `i + 1` times, and the loop ends normally. -/
theorem drawLoop_eq [Field α] (M : JsMath α) (angle : α) (path : Path α) (style : FillStyle)
    (n : Nat) (ctm : Transform α) (canvas : Surface α) :
    drawLoop M angle false path style n ctm canvas =
      ⟨(fun m => Transform.rotate M m angle)^[n] ctm,
        canvas ++ (List.range n).map
          (fun i => (⟨(fun m => Transform.rotate M m angle)^[i + 1] ctm, path, style⟩ : Stamp α)),
        .normal⟩ := by
  induction n generalizing ctm canvas with
  | zero => simp [drawLoop]
  | succ n ih =>
    rw [drawLoop]
    simp only [Bool.false_eq_true, if_false]
    rw [ih, List.range_succ_eq_map, List.map_cons, List.map_map, List.append_assoc]
    rfl

/-- When the path-building call throws, the first iteration rotates the
context and ends the loop with nothing painted. -/
theorem drawLoop_throws [Field α] (M : JsMath α) (angle : α) (path : Path α) (style : FillStyle)
    (n : Nat) (ctm : Transform α) (canvas : Surface α) :
    drawLoop M angle true path style (n + 1) ctm canvas =
      ⟨ctm.rotate M angle, canvas, .throwIndexSizeError⟩ := rfl

theorem pathThrows_eq_false (shape : BrushShape) (size : Int)
    (h : 0 ≤ size ∨ (shape ≠ .circle ∧ shape ≠ .oval)) : pathThrows shape size = false := by
  cases shape <;> simp [pathThrows] <;> rcases h with h | h <;> first | omega | simp at h

/-- A call of `drawDot` during a stroke with a brush whose path-building call
does not throw ends normally, appends `mirrorCount` stamps to the canvas and
leaves everything else, the context included, as it was. -/
theorem drawDot_normal [Field α] (M : JsMath α) (s : State α) (x y : α)
    (hd : s.isDrawing = true) (hp : pathThrows s.brushShape s.dotSize = false) :
    drawDot M s x y =
      ⟨{ s with
        surface := s.surface ++ List.map
          (fun i => (⟨(fun m => Transform.rotate M m (M.PI * 2 / (s.mirrorCount : α)))^[i + 1]
              (s.ctm.translate s.mirrorCenterX s.mirrorCenterY),
            shapePath M s.brushShape x y s.mirrorCenterX s.mirrorCenterY (s.dotSize : α),
            fillStyleOf s⟩ : Stamp α)) (List.range s.mirrorCount) }, .normal⟩ := by
  unfold drawDot
  rw [hd, hp]
  simp only [Bool.not_true, Bool.false_eq_true, if_false, drawLoop_eq]
  rfl

/-- A call of `drawDot` during a stroke with at least one mirror and a brush
whose path-building call throws paints nothing, throws, and leaves the context
translated and rotated with the entry matrix still on the save stack. -/
theorem drawDot_throws [Field α] (M : JsMath α) (s : State α) (x y : α) (n : Nat)
    (hd : s.isDrawing = true) (hp : pathThrows s.brushShape s.dotSize = true)
    (hn : s.mirrorCount = n + 1) :
    drawDot M s x y =
      ⟨{ s with
        ctm := Transform.rotate M (s.ctm.translate s.mirrorCenterX s.mirrorCenterY)
            (M.PI * 2 / ((n + 1 : Nat) : α)),
        ctxSaved := s.ctm :: s.ctxSaved }, .throwIndexSizeError⟩ := by
  unfold drawDot
  rw [hd, hp, hn]
  simp only [Bool.not_true, Bool.false_eq_true, if_false, drawLoop_throws]

theorem loadImage_controls (d : Option (DataURL α)) (s : State α) :
    (loadImage d s).ctm = s.ctm ∧ (loadImage d s).ctxSaved = s.ctxSaved ∧
      (loadImage d s).brushShape = s.brushShape ∧ (loadImage d s).dotSize = s.dotSize := by
  cases d <;> exact ⟨rfl, rfl, rfl, rfl⟩

theorem undoAction_controls (s : State α) :
    (undoAction s).state.ctm = s.ctm ∧ (undoAction s).state.ctxSaved = s.ctxSaved ∧
      (undoAction s).state.brushShape = s.brushShape ∧
      (undoAction s).state.dotSize = s.dotSize := by
  unfold undoAction
  split
  · simp only [assign, undoIndexDecl, Outcome.andThen, disableUndoRedoButtons]
    exact loadImage_controls _ _
  · exact ⟨rfl, rfl, rfl, rfl⟩

theorem redoAction_controls (s : State α) :
    (redoAction s).state.ctm = s.ctm ∧ (redoAction s).state.ctxSaved = s.ctxSaved ∧
      (redoAction s).state.brushShape = s.brushShape ∧
      (redoAction s).state.dotSize = s.dotSize := by
  unfold redoAction
  split
  · simp only [disableUndoRedoButtons]
    exact loadImage_controls _ _
  · exact ⟨rfl, rfl, rfl, rfl⟩

/-- With a brush whose path-building call does not throw, no listener changes
the context or the brush. -/
theorem handle_controls [Field α] (M : JsMath α) (ev : Event α) (s : State α)
    (hp : pathThrows s.brushShape s.dotSize = false) :
    (handle M ev s).state.ctm = s.ctm ∧ (handle M ev s).state.ctxSaved = s.ctxSaved ∧
      (handle M ev s).state.brushShape = s.brushShape ∧
      (handle M ev s).state.dotSize = s.dotSize := by
  have hstart : ∀ x y : α, (strokeStart M x y s).state.ctm = s.ctm ∧
      (strokeStart M x y s).state.ctxSaved = s.ctxSaved ∧
      (strokeStart M x y s).state.brushShape = s.brushShape ∧
      (strokeStart M x y s).state.dotSize = s.dotSize := by
    intro x y
    have he : strokeStart M x y s =
        (drawDot M { s with isDrawing := true } x y).andThen fun s2 =>
          (saveState s2).andThen fun s3 => ⟨disableUndoRedoButtons false s3, .normal⟩ := rfl
    rw [he, drawDot_normal M { s with isDrawing := true } x y rfl hp]
    exact ⟨rfl, rfl, rfl, rfl⟩
  have hmove : ∀ x y : α, (strokeMove M x y s).state.ctm = s.ctm ∧
      (strokeMove M x y s).state.ctxSaved = s.ctxSaved ∧
      (strokeMove M x y s).state.brushShape = s.brushShape ∧
      (strokeMove M x y s).state.dotSize = s.dotSize := by
    intro x y
    unfold strokeMove
    split
    · rename_i hd
      rw [drawDot_normal M s x y hd hp]
      exact ⟨rfl, rfl, rfl, rfl⟩
    · exact ⟨rfl, rfl, rfl, rfl⟩
  cases ev with
  | mousedown x y => exact hstart x y
  | mousemove x y => exact hmove x y
  | mouseup => exact ⟨rfl, rfl, rfl, rfl⟩
  | mouseout => exact ⟨rfl, rfl, rfl, rfl⟩
  | touchstart x y => exact hstart x y
  | touchmove x y => exact hmove x y
  | touchend => exact ⟨rfl, rfl, rfl, rfl⟩
  | undoClick => exact undoAction_controls s
  | redoClick => exact redoAction_controls s

/-- In every state reached by events from a state whose brush has a
path-building call that does not throw, the context is the one of the
starting state: on a page started fresh the matrix is the identity whenever
`drawDot` is entered. -/
theorem run_controls [Field α] (M : JsMath α) (evs : List (Event α)) (s : State α)
    (hp : pathThrows s.brushShape s.dotSize = false) :
    (run M evs s).ctm = s.ctm ∧ (run M evs s).ctxSaved = s.ctxSaved ∧
      (run M evs s).brushShape = s.brushShape ∧ (run M evs s).dotSize = s.dotSize := by
  induction evs generalizing s with
  | nil => exact ⟨rfl, rfl, rfl, rfl⟩
  | cons ev evs ih =>
    obtain ⟨h1, h2, h3, h4⟩ := handle_controls M ev s hp
    have hp1 : pathThrows (handle M ev s).state.brushShape (handle M ev s).state.dotSize =
        false := by rw [h3, h4]; exact hp
    obtain ⟨k1, k2, k3, k4⟩ := ih (handle M ev s).state hp1
    exact ⟨k1.trans h1, k2.trans h2, k3.trans h3, k4.trans h4⟩

/-- A call of `drawDot` during a stroke, entered with the identity matrix and
a brush whose path-building call does not throw: the stamps appended. -/
theorem drawDot_surface [Field α] (M : JsMath α) (s : State α) (x y : α)
    (hd : s.isDrawing = true) (hctm : s.ctm = Transform.identity)
    (hp : pathThrows s.brushShape s.dotSize = false) :
    (drawDot M s x y).state.surface =
      s.surface ++ (List.range s.mirrorCount).map
        (fun i => (⟨(fun m => Transform.rotate M m (M.PI * 2 / (s.mirrorCount : α)))^[i + 1]
            (Transform.identity.translate s.mirrorCenterX s.mirrorCenterY),
          shapePath M s.brushShape x y s.mirrorCenterX s.mirrorCenterY (s.dotSize : α),
          fillStyleOf s⟩ : Stamp α)) := by
  rw [drawDot_normal M s x y hd hp, hctm]

theorem drawDot_completion [Field α] (M : JsMath α) (s : State α) (x y : α)
    (hd : s.isDrawing = true) (hp : pathThrows s.brushShape s.dotSize = false) :
    (drawDot M s x y).completion = .normal ∧ (drawDot M s x y).state.ctm = s.ctm ∧
      (drawDot M s x y).state.ctxSaved = s.ctxSaved := by
  rw [drawDot_normal M s x y hd hp]
  exact ⟨rfl, rfl, rfl⟩

theorem translate_identity [Field α] (cx cy : α) :
    (Transform.identity : Transform α).translate cx cy = ⟨1, 0, 0, 1, cx, cy⟩ := by
  simp [Transform.identity, Transform.translate]

/-- Over the reals, rotating `k` times by `angle` is rotating by `k * angle`. -/
theorem rotate_iterate (cx cy angle : ℝ) (k : Nat) :
    (fun m => Transform.rotate ⟨Real.pi, Real.cos, Real.sin⟩ m angle)^[k] ⟨1, 0, 0, 1, cx, cy⟩ =
      ⟨Real.cos (k * angle), Real.sin (k * angle), -Real.sin (k * angle),
        Real.cos (k * angle), cx, cy⟩ := by
  induction k with
  | zero => simp
  | succ k ih =>
    rw [Function.iterate_succ_apply', ih]
    have hc : Real.cos (((k + 1 : Nat) : ℝ) * angle) =
        Real.cos (k * angle) * Real.cos angle - Real.sin (k * angle) * Real.sin angle := by
      rw [← Real.cos_add]; congr 1; push_cast; ring
    have hs : Real.sin (((k + 1 : Nat) : ℝ) * angle) =
        Real.sin (k * angle) * Real.cos angle + Real.cos (k * angle) * Real.sin angle := by
      rw [← Real.sin_add]; congr 1; push_cast; ring
    simp only [Transform.rotate, hc, hs, Transform.mk.injEq, and_true]
    exact ⟨by ring, trivial, by ring⟩

/-- Every brush shape is centred on the pointer position taken relative to the
pivot. -/
theorem shapePath_centre [LinearOrderedField α] (M : JsMath α) (shape : BrushShape)
    (x y cx cy size : α) :
    (shapePath M shape x y cx cy size).centre = (x - cx, y - cy) := by
  cases shape with
  | circle => rfl
  | square => simp [shapePath, Path.centre]
  | oval => rfl
  | rectangle =>
    simp only [shapePath, Path.centre, Prod.mk.injEq]
    constructor <;> ring
  | triangle =>
    simp only [shapePath, Path.centre, bboxCentre, List.foldl_cons, List.foldl_nil,
      Prod.mk.injEq, min_def, max_def]
    constructor <;> split_ifs <;> linarith

/-- The path built by `drawDot`, moved by the pivot, is the base geometry of
the specification at the pointer position. -/
theorem shapePath_shift [LinearOrderedField α] (M : JsMath α) (shape : BrushShape)
    (x y cx cy size : α) :
    (shapePath M shape x y cx cy size).shift cx cy = specGeometry M shape x y size := by
  cases shape with
  | circle => simp [shapePath, Path.shift, specGeometry]
  | square =>
    simp only [shapePath, Path.shift, specGeometry, Path.rect.injEq, and_true]
    constructor <;> ring
  | oval => simp [shapePath, Path.shift, specGeometry]
  | rectangle =>
    simp only [shapePath, Path.shift, specGeometry, Path.rect.injEq, and_true]
    refine ⟨by ring, by ring, by ring⟩
  | triangle =>
    simp only [shapePath, Path.shift, specGeometry, List.map_cons, List.map_nil,
      Path.polygon.injEq, List.cons.injEq, Prod.mk.injEq, and_true]
    refine ⟨⟨by ring, by ring⟩, ⟨by ring, by ring⟩, by ring, by ring⟩

/-! ## The claims -/

/-- C3, evaluated at K = 2: after two captures from the fresh history the
cursor is still `-1`, so `undoAction()` does not pass its guard even once (the
claim says once) and the canvas keeps the second content instead of showing
the first snapshot. -/
theorem undo_after_two_captures :
    (captureAll [canvasA, canvasB] freshPage).undoStack = [some ⟨canvasA⟩, some ⟨canvasB⟩] ∧
      (captureAll [canvasA, canvasB] freshPage).undoIndex = -1 ∧
      undoCount 2 (captureAll [canvasA, canvasB] freshPage) = 0 ∧
      undoAction (captureAll [canvasA, canvasB] freshPage) =
        ⟨captureAll [canvasA, canvasB] freshPage, .normal⟩ ∧
      (undoAction (captureAll [canvasA, canvasB] freshPage)).state.surface = canvasB :=
  ⟨rfl, rfl, rfl, rfl, rfl⟩

/-- C4, evaluated at K = 1: the first call of `saveState()` on the fresh
history appends the snapshot, throws a `TypeError` and leaves the cursor at
`-1` (the claim says it completes normally with the cursor at 0). -/
theorem saveState_first_call :
    (saveState freshPage).completion = .throwTypeError ∧
      (saveState freshPage).state.undoStack = [some ⟨[]⟩] ∧
      (saveState freshPage).state.undoIndex = -1 ∧
      (saveState freshPage).state.redoStack = [] :=
  ⟨rfl, rfl, rfl, rfl⟩

/-- C5: with the cursor at `-1` (fresh history) or at `0` (first entry)
`undoAction()` changes nothing, and with an empty redo buffer `redoAction()`
changes nothing: the whole state (canvas, undo sequence, cursor, redo buffer,
buttons) is the same and the call completes normally. -/
theorem undo_redo_noop (s t : State α) (hs : s.undoIndex = -1 ∨ s.undoIndex = 0)
    (ht : t.redoStack = []) :
    undoAction s = ⟨s, .normal⟩ ∧ redoAction t = ⟨t, .normal⟩ :=
  ⟨undoAction_of_not_pos s (by omega), redoAction_of_nil t ht⟩

theorem undo_redo_noop_witness :
    (undoAction freshPage = ⟨freshPage, .normal⟩ ∧ redoAction freshPage = ⟨freshPage, .normal⟩) ∧
      (undoAction { undoneOnce with redoStack := [] } =
          ⟨{ undoneOnce with redoStack := [] }, .normal⟩ ∧
        redoAction { undoneOnce with redoStack := [] } =
          ⟨{ undoneOnce with redoStack := [] }, .normal⟩) :=
  ⟨undo_redo_noop freshPage freshPage (Or.inl rfl) rfl,
    undo_redo_noop { undoneOnce with redoStack := [] } { undoneOnce with redoStack := [] }
      (Or.inr rfl) rfl⟩

/-- C9, evaluated after one `saveState()` from the initial state: the undo
sequence holds one entry and the cursor is `-1` (the claim says the cursor is
`-1` only when the sequence is empty). -/
theorem cursor_after_one_capture :
    (runCalls [.saveState] freshPage).undoStack.length = 1 ∧
      (runCalls [.saveState] freshPage).undoIndex = -1 ∧
      ¬ (0 ≤ (runCalls [.saveState] freshPage).undoIndex) :=
  ⟨rfl, rfl, by decide⟩

/-- C10 fails on the fresh history: after `disableUndoRedoButtons()` the undo
button is enabled although `undoAction()` is a no-op (cursor `-1`). -/
theorem undo_button_counterexample :
    ¬ ((disableUndoRedoButtons true freshPage).undoButtonDisabled = true ↔
        undoAction (disableUndoRedoButtons true freshPage) =
          ⟨disableUndoRedoButtons true freshPage, .normal⟩) := by
  intro h
  have hd := h.mpr (undoAction_of_not_pos _ (by decide))
  exact absurd hd (by decide)

/-- C10 as amended: after `disableUndoRedoButtons()` with its default
argument, for every state whose cursor is not negative the undo button is
disabled exactly when `undoAction()` is a no-op, and for every state the redo
button is disabled exactly when `redoAction()` is a no-op. -/
theorem buttons_agree (s : State α) :
    (0 ≤ s.undoIndex →
      ((disableUndoRedoButtons true s).undoButtonDisabled = true ↔
        undoAction (disableUndoRedoButtons true s) =
          ⟨disableUndoRedoButtons true s, .normal⟩)) ∧
      ((disableUndoRedoButtons true s).redoButtonDisabled = true ↔
        redoAction (disableUndoRedoButtons true s) =
          ⟨disableUndoRedoButtons true s, .normal⟩) := by
  have hi : (disableUndoRedoButtons true s).undoIndex = s.undoIndex := rfl
  have hr : (disableUndoRedoButtons true s).redoStack = s.redoStack := rfl
  constructor
  · intro h
    constructor
    · intro hb
      have h0 : s.undoIndex = 0 := by simpa [disableUndoRedoButtons] using hb
      exact undoAction_of_not_pos _ (by rw [hi]; omega)
    · intro hu
      by_cases hp : 0 < s.undoIndex
      · have h1 := undoAction_undoIndex_of_pos (disableUndoRedoButtons true s) (by rw [hi]; exact hp)
        rw [hu] at h1
        simp only [hi] at h1
        omega
      · have h0 : s.undoIndex = 0 := by omega
        simp [disableUndoRedoButtons, h0]
  · constructor
    · intro hb
      have h0 : s.redoStack = [] := by simpa [disableUndoRedoButtons] using hb
      exact redoAction_of_nil _ (by rw [hr]; exact h0)
    · intro hu
      by_cases hp : 0 < s.redoStack.length
      · have h1 := redoAction_redoStack_of_pos (disableUndoRedoButtons true s)
          (by rw [hr]; exact hp)
        rw [hu] at h1
        simp only [hr] at h1
        have h2 := congrArg List.length h1
        rw [List.length_dropLast] at h2
        omega
      · have h0 : s.redoStack = [] := List.length_eq_zero.mp (by omega)
        simp [disableUndoRedoButtons, h0]

theorem buttons_agree_witness :
    (0 : Int) ≤ undoneOnce.undoIndex ∧
      ((disableUndoRedoButtons true undoneOnce).undoButtonDisabled = true ↔
        undoAction (disableUndoRedoButtons true undoneOnce) =
          ⟨disableUndoRedoButtons true undoneOnce, .normal⟩) ∧
      ((disableUndoRedoButtons true undoneOnce).redoButtonDisabled = true ↔
        redoAction (disableUndoRedoButtons true undoneOnce) =
          ⟨disableUndoRedoButtons true undoneOnce, .normal⟩) ∧
      ((disableUndoRedoButtons true freshPage).redoButtonDisabled = true ↔
        redoAction (disableUndoRedoButtons true freshPage) =
          ⟨disableUndoRedoButtons true freshPage, .normal⟩) :=
  ⟨by decide, (buttons_agree undoneOnce).1 (by decide), (buttons_agree undoneOnce).2,
    (buttons_agree freshPage).2⟩

/-- Over the reals the stamp of iteration `i` (counted from 0) of `drawDot`
maps user space to device space by the rotation of `(i + 1) * 2π / N` about
the origin followed by the translation to the pivot. -/
theorem stamp_apply (cx cy angle : ℝ) (k : Nat) (u : ℝ × ℝ) :
    ((fun m => Transform.rotate ⟨Real.pi, Real.cos, Real.sin⟩ m angle)^[k]
        (Transform.identity.translate cx cy)).apply u =
      (cx, cy) + rotateAboutOrigin (Real.cos (k * angle)) (Real.sin (k * angle)) u := by
  rw [translate_identity, rotate_iterate]
  simp only [Transform.apply, rotateAboutOrigin, Prod.mk_add_mk, Prod.mk.injEq]
  constructor <;> ring

theorem quarter_turns :
    Real.cos (Real.pi * 2 / 4) = 0 ∧ Real.sin (Real.pi * 2 / 4) = 1 ∧
    Real.cos (2 * (Real.pi * 2 / 4)) = -1 ∧ Real.sin (2 * (Real.pi * 2 / 4)) = 0 ∧
    Real.cos (3 * (Real.pi * 2 / 4)) = 0 ∧ Real.sin (3 * (Real.pi * 2 / 4)) = -1 ∧
    Real.cos (4 * (Real.pi * 2 / 4)) = 1 ∧ Real.sin (4 * (Real.pi * 2 / 4)) = 0 := by
  have e1 : Real.pi * 2 / 4 = Real.pi / 2 := by ring
  have e2 : 2 * (Real.pi / 2) = Real.pi := by ring
  have e3 : 3 * (Real.pi / 2) = Real.pi + Real.pi / 2 := by ring
  have e4 : 4 * (Real.pi / 2) = 2 * Real.pi := by ring
  rw [e1, e2, e3, e4, Real.cos_add, Real.sin_add]
  simp

/-- C7: while a stroke is active, on a context whose matrix is the identity
(as on a fresh page and after every call that returned) and with a brush
whose path-building call does not throw (a size that is not negative, or a
square, rectangle or triangle), `drawDot(x, y)` returns normally and paints
exactly `mirrorCount` shape instances after what the canvas held.  Instance number `i + 1` (index
`i` from 0) has the path of the brush shape and is centred at
`c + R((i + 1) * 2π / N) (p - c)`, where `c` is the pivot, `p = (x, y)` and `R`
is the rotation about the origin; its matrix sends every user point `u` to
`c + R((i + 1) * 2π / N) u`, so the next instance is this one rotated by
`2π / N` about `c`.  For `N = 4`, `c = (100, 100)`, `p = (150, 100)` the centres
are `(100, 150)`, `(50, 100)`, `(100, 50)`, `(150, 100)` in paint order. -/
theorem drawDot_rotational_copies (s : State ℝ) (x y : ℝ) (hd : s.isDrawing = true)
    (hctm : s.ctm = Transform.identity)
    (hsz : 0 ≤ s.dotSize ∨ (s.brushShape ≠ .circle ∧ s.brushShape ≠ .oval)) :
    ∃ painted : List (Stamp ℝ),
      (drawDot ⟨Real.pi, Real.cos, Real.sin⟩ s x y).completion = .normal ∧
      (drawDot ⟨Real.pi, Real.cos, Real.sin⟩ s x y).state.surface = s.surface ++ painted ∧
      painted.length = s.mirrorCount ∧
      (∀ (i : Nat) (hi : i < painted.length),
        (painted.get ⟨i, hi⟩).path =
            shapePath ⟨Real.pi, Real.cos, Real.sin⟩ s.brushShape x y
              s.mirrorCenterX s.mirrorCenterY (s.dotSize : ℝ) ∧
          (painted.get ⟨i, hi⟩).centre =
            (s.mirrorCenterX, s.mirrorCenterY) +
              rotateAboutOrigin
                (Real.cos (((i + 1 : Nat) : ℝ) * (2 * Real.pi / (s.mirrorCount : ℝ))))
                (Real.sin (((i + 1 : Nat) : ℝ) * (2 * Real.pi / (s.mirrorCount : ℝ))))
                ((x, y) - (s.mirrorCenterX, s.mirrorCenterY)) ∧
          ∀ u : ℝ × ℝ, (painted.get ⟨i, hi⟩).ctm.apply u =
            (s.mirrorCenterX, s.mirrorCenterY) +
              rotateAboutOrigin
                (Real.cos (((i + 1 : Nat) : ℝ) * (2 * Real.pi / (s.mirrorCount : ℝ))))
                (Real.sin (((i + 1 : Nat) : ℝ) * (2 * Real.pi / (s.mirrorCount : ℝ)))) u) ∧
      (∀ (i : Nat) (hi : i + 1 < painted.length) (u : ℝ × ℝ),
        (painted.get ⟨i + 1, hi⟩).ctm.apply u =
          (s.mirrorCenterX, s.mirrorCenterY) +
            rotateAboutOrigin (Real.cos (2 * Real.pi / (s.mirrorCount : ℝ)))
              (Real.sin (2 * Real.pi / (s.mirrorCount : ℝ)))
              ((painted.get ⟨i, Nat.lt_of_succ_lt hi⟩).ctm.apply u -
                (s.mirrorCenterX, s.mirrorCenterY))) ∧
      (s.mirrorCount = 4 → s.mirrorCenterX = 100 → s.mirrorCenterY = 100 → x = 150 → y = 100 →
        painted.map Stamp.centre = [(100, 150), (50, 100), (100, 50), (150, 100)]) := by
  have hang : Real.pi * 2 / (s.mirrorCount : ℝ) = 2 * Real.pi / (s.mirrorCount : ℝ) := by ring
  have hp := pathThrows_eq_false s.brushShape s.dotSize hsz
  refine ⟨_, (drawDot_completion _ s x y hd hp).1, drawDot_surface _ s x y hd hctm hp,
    by simp, ?_, ?_, ?_⟩
  · intro i hi
    refine ⟨?_, ?_, ?_⟩
    · simp only [List.get_eq_getElem, List.getElem_map, List.getElem_range]
    · simp only [List.get_eq_getElem, List.getElem_map, List.getElem_range, Stamp.centre,
        shapePath_centre, stamp_apply, hang, Prod.mk_sub_mk]
    · intro u
      simp only [List.get_eq_getElem, List.getElem_map, List.getElem_range, stamp_apply, hang]
  · intro i hi u
    simp only [List.get_eq_getElem, List.getElem_map, List.getElem_range, stamp_apply, hang]
    simp only [rotateAboutOrigin, Prod.mk_add_mk, Prod.mk_sub_mk, Prod.mk.injEq]
    have hc : Real.cos (((i + 1 + 1 : Nat) : ℝ) * (2 * Real.pi / (s.mirrorCount : ℝ))) =
        Real.cos (((i + 1 : Nat) : ℝ) * (2 * Real.pi / (s.mirrorCount : ℝ))) *
            Real.cos (2 * Real.pi / (s.mirrorCount : ℝ)) -
          Real.sin (((i + 1 : Nat) : ℝ) * (2 * Real.pi / (s.mirrorCount : ℝ))) *
            Real.sin (2 * Real.pi / (s.mirrorCount : ℝ)) := by
      rw [← Real.cos_add]; congr 1; push_cast; ring
    have hs : Real.sin (((i + 1 + 1 : Nat) : ℝ) * (2 * Real.pi / (s.mirrorCount : ℝ))) =
        Real.sin (((i + 1 : Nat) : ℝ) * (2 * Real.pi / (s.mirrorCount : ℝ))) *
            Real.cos (2 * Real.pi / (s.mirrorCount : ℝ)) +
          Real.cos (((i + 1 : Nat) : ℝ) * (2 * Real.pi / (s.mirrorCount : ℝ))) *
            Real.sin (2 * Real.pi / (s.mirrorCount : ℝ)) := by
      rw [← Real.sin_add]; congr 1; push_cast; ring
    rw [hc, hs]
    constructor <;> ring
  · intro h4 hx hy hpx hpy
    obtain ⟨q1, q2, q3, q4, q5, q6, q7, q8⟩ := quarter_turns
    have hr : List.range 4 = [0, 1, 2, 3] := by decide
    simp only [h4, hr, List.map_cons, List.map_nil, Stamp.centre, shapePath_centre, stamp_apply,
      hx, hy, hpx, hpy, rotateAboutOrigin, Prod.mk_add_mk]
    norm_num [q1, q2, q3, q4, q5, q6, q7, q8]

theorem drawDot_rotational_copies_witness :
    ((activeStroke 4 : State ℝ).isDrawing = true ∧
        (activeStroke 4 : State ℝ).ctm = Transform.identity ∧
        (0 : Int) ≤ (activeStroke 4 : State ℝ).dotSize) ∧
      ∃ painted : List (Stamp ℝ),
        (drawDot ⟨Real.pi, Real.cos, Real.sin⟩ (activeStroke 4) 150 100).completion = .normal ∧
        (drawDot ⟨Real.pi, Real.cos, Real.sin⟩ (activeStroke 4) 150 100).state.surface =
          (activeStroke 4 : State ℝ).surface ++ painted ∧
        painted.length = 4 ∧
        painted.map Stamp.centre = [(100, 150), (50, 100), (100, 50), (150, 100)] := by
  refine ⟨⟨rfl, rfl, by decide⟩, ?_⟩
  obtain ⟨painted, h0, h1, h2, _, _, h5⟩ :=
    drawDot_rotational_copies (activeStroke 4) 150 100 rfl rfl (Or.inl (by decide))
  exact ⟨painted, h0, h1, h2, h5 rfl rfl rfl rfl rfl⟩

/-- C8 fails at size `-3` with the circle brush: with one mirror, a stroke
active and a fresh context, `drawDot(150, 100)` throws an `IndexSizeError` at
`ctx.arc` and paints no shape instance; `ctx.restore()` does not run and the
context stays translated to the pivot. -/
theorem negative_radius_counterexample :
    (negativeStroke 1 : State ℝ).isDrawing = true ∧
      (negativeStroke 1 : State ℝ).mirrorCount = 1 ∧
      (negativeStroke 1 : State ℝ).ctm = Transform.identity ∧
      (drawDot ⟨Real.pi, Real.cos, Real.sin⟩ (negativeStroke 1) 150 100).completion =
        .throwIndexSizeError ∧
      (drawDot ⟨Real.pi, Real.cos, Real.sin⟩ (negativeStroke 1) 150 100).state.surface = [] ∧
      (¬ ∃ st : Stamp ℝ,
        (drawDot ⟨Real.pi, Real.cos, Real.sin⟩ (negativeStroke 1) 150 100).state.surface =
          (negativeStroke 1 : State ℝ).surface ++ [st]) ∧
      (drawDot ⟨Real.pi, Real.cos, Real.sin⟩ (negativeStroke 1) 150 100).state.ctm.e = 100 ∧
      (drawDot ⟨Real.pi, Real.cos, Real.sin⟩ (negativeStroke 1) 150 100).state.ctxSaved =
        [Transform.identity] := by
  have h := drawDot_throws ⟨Real.pi, Real.cos, Real.sin⟩ (negativeStroke 1 : State ℝ) 150 100 0
    rfl rfl rfl
  rw [h]
  refine ⟨rfl, rfl, rfl, rfl, rfl, ?_, ?_, rfl⟩
  · rintro ⟨st, hst⟩
    exact absurd hst (by simp [negativeStroke, activeStroke, initialState])
  · simp [negativeStroke, activeStroke, initialState, Transform.rotate, Transform.translate,
      Transform.identity]

/-- C8 as amended: with `mirrorCount` 1, while a stroke is active, on a
context whose matrix is the identity and with a size that is not negative or
a brush shape other than circle and oval, `drawDot(x, y)` returns normally
and paints exactly one shape instance after what the canvas held.  Its matrix is the
pure translation by the pivot (no rotation: the rotation by `2π` is the
identity), and its path moved by the pivot is the base geometry of the brush
shape at `(x, y)` as the specification words it, whatever the pivot; it is
centred at `(x, y)`. -/
theorem drawDot_single_mirror (s : State ℝ) (x y : ℝ) (hd : s.isDrawing = true)
    (h1 : s.mirrorCount = 1) (hctm : s.ctm = Transform.identity)
    (hsz : 0 ≤ s.dotSize ∨ (s.brushShape ≠ .circle ∧ s.brushShape ≠ .oval)) :
    ∃ st : Stamp ℝ,
      (drawDot ⟨Real.pi, Real.cos, Real.sin⟩ s x y).completion = .normal ∧
      (drawDot ⟨Real.pi, Real.cos, Real.sin⟩ s x y).state.surface = s.surface ++ [st] ∧
      st.ctm = ⟨1, 0, 0, 1, s.mirrorCenterX, s.mirrorCenterY⟩ ∧
      (∀ u : ℝ × ℝ, st.ctm.apply u = u + (s.mirrorCenterX, s.mirrorCenterY)) ∧
      st.path.shift s.mirrorCenterX s.mirrorCenterY =
        specGeometry ⟨Real.pi, Real.cos, Real.sin⟩ s.brushShape x y (s.dotSize : ℝ) ∧
      st.centre = (x, y) ∧
      st.fillStyle = fillStyleOf s := by
  have hp := pathThrows_eq_false s.brushShape s.dotSize hsz
  have hs := drawDot_surface ⟨Real.pi, Real.cos, Real.sin⟩ s x y hd hctm hp
  have ha : ((0 + 1 : Nat) : ℝ) * (Real.pi * 2 / ((1 : Nat) : ℝ)) = 2 * Real.pi := by
    push_cast; ring
  have hcos : Real.cos (((0 + 1 : Nat) : ℝ) * (Real.pi * 2 / ((1 : Nat) : ℝ))) = 1 := by
    rw [ha]; exact Real.cos_two_pi
  have hsin : Real.sin (((0 + 1 : Nat) : ℝ) * (Real.pi * 2 / ((1 : Nat) : ℝ))) = 0 := by
    rw [ha]; exact Real.sin_two_pi
  have hr : List.range 1 = [0] := rfl
  rw [h1, hr] at hs
  simp only [List.map_cons, List.map_nil, translate_identity, rotate_iterate, hcos, hsin,
    neg_zero] at hs
  refine ⟨_, (drawDot_completion _ s x y hd hp).1, hs, rfl, ?_,
    shapePath_shift _ _ _ _ _ _ _, ?_, rfl⟩
  · intro u
    simp only [Transform.apply, Prod.ext_iff, Prod.fst_add, Prod.snd_add]
    constructor <;> ring
  · simp only [Stamp.centre, shapePath_centre, Transform.apply, Prod.mk.injEq]
    constructor <;> ring

theorem drawDot_single_mirror_witness :
    ((activeStroke 1 : State ℝ).isDrawing = true ∧ (activeStroke 1 : State ℝ).mirrorCount = 1 ∧
        (activeStroke 1 : State ℝ).ctm = Transform.identity ∧
        (0 : Int) ≤ (activeStroke 1 : State ℝ).dotSize) ∧
      ∃ st : Stamp ℝ,
        (drawDot ⟨Real.pi, Real.cos, Real.sin⟩ (activeStroke 1) 150 100).completion = .normal ∧
        (drawDot ⟨Real.pi, Real.cos, Real.sin⟩ (activeStroke 1) 150 100).state.surface = [st] ∧
        st.ctm = ⟨1, 0, 0, 1, 100, 100⟩ ∧
        st.path.shift 100 100 = .arc 150 100 5 0 (Real.pi * 2) ∧
        st.centre = (150, 100) := by
  refine ⟨⟨rfl, rfl, rfl, by decide⟩, ?_⟩
  obtain ⟨st, h0, h1, h2, _, h4, h5, _⟩ :=
    drawDot_single_mirror (activeStroke 1) 150 100 rfl rfl rfl (Or.inl (by decide))
  refine ⟨st, h0, h1, h2, ?_, h5⟩
  simpa [activeStroke, initialState, specGeometry] using h4

end Script
